import Mathlib

/-!
# Verification of the wattle rendering-resource core

This file gives a shallow embedding, in Lean 4, of the resource-lifecycle and
scoped-transform core of the wattle repository:

* `src/engine/src/utils/raii.js` (appended to `Texture.js` in this snapshot):
  the scoped cleanup registry (`runAndCleanOnError`, `buildCleanable`,
  `cleanUpObject`, `onCleanUp`);
* `src/engine/src/swagl/Program.js`: the render-session state machine
  (`renderInProgram`, `onRenderComplete`, `getProgram`);
* `src/engine/src/swagl/ProgramInput.js`: per-session uniform resolution
  (`ProgramInput.loadGL`, `Mat4fv.setMatrix`);
* `src/unnamed/part_000` (the matrix-stack module): `useMatrixStack`,
  `applyMatrixOperation`, `applyAbsoluteMatrixOperation`, `subrender`,
  `subrenderWithArg`.

JavaScript side effects are made explicit: each embedded operation is a pure
function from an explicit state to a new state together with observation logs
(which closures / callbacks ran, what was written, what was logged to
`console.error`) and an optional raised exception.  Thrown JavaScript values
are modelled by the inductive `JSError` below; the JavaScript literal `null`
thrown as an exception gets its own constructor, and `undefined` values read
off the end of an array are modelled with `Option` (`none` = `undefined`).
Numeric matrix entries (JS floats) are modelled as rationals; every claim we
state about matrices concerns the exact arithmetic expression structure the
source computes, not rounding.
-/

/-- Thrown JavaScript values.  Constructors are named after the throw sites in
the source; `userErr` stands for distinct error objects thrown by user-supplied
closures / bodies, and `jsNull` is the JavaScript literal `null` thrown as an
exception value. -/
inductive JSError where
  /-- "useMatrixStack called while already being used" -/
  | errUseMatrixStackTwice
  /-- "MatrixStack operation invoked outside of a render ..." (either message
  variant of `assertInputNotNull`) -/
  | errNoActiveInput
  /-- "renderInProgram called during another renderInProgram" -/
  | errRenderInProgramNested
  /-- "onRenderComplete called outside of renderInProgram" -/
  | errOnRenderCompleteOutside
  /-- "ProgramInput.set called without any program rendering" -/
  | errSetWithoutProgram
  /-- "ProgramInput.set called during a different program" -/
  | errSetDifferentProgram
  /-- "onCleanUp called outside of runAndCleanOnError call" -/
  | errOnCleanUpOutside
  /-- "buildCleanable given non-object result" -/
  | errNonObjectResult
  /-- "No Uniform Variable (name) within (program)" -/
  | errUnknownUniform (name : Nat)
  /-- a TypeError raised by the JS runtime itself (e.g. reading an index of
  `undefined`) -/
  | errTypeError
  /-- an error object thrown by user code (a closure, callback or body) -/
  | userErr (n : Nat)
  /-- the JavaScript value `null`, thrown as an exception -/
  | jsNull
deriving DecidableEq, Repr

/-- Which of the thrown values are usage errors in the sense of the spec
(operation invoked in the wrong state). -/
def JSError.isUsage : JSError → Bool
  | .errUseMatrixStackTwice => true
  | .errNoActiveInput => true
  | .errRenderInProgramNested => true
  | .errOnRenderCompleteOutside => true
  | .errSetWithoutProgram => true
  | .errSetDifferentProgram => true
  | .errOnCleanUpOutside => true
  | .errNonObjectResult => true
  | _ => false

/-! ## Scoped cleanup registry (`raii.js`)

A teardown closure is identified by an id (so the run order is observable) and
a behaviour: it either returns normally or throws a fixed error when invoked.
-/

/-- A zero-argument teardown closure: `id` identifies it in run logs, `throws`
is `some e` when invoking it throws `e`. -/
structure Closure where
  id : Nat
  throws : Option JSError
deriving DecidableEq, Repr

/-- The `CLEANABLES` map: object handles (identified by `Nat`) to their
registered cleanup-closure list. -/
def Cleanables : Type := Nat → Option (List Closure)

/-- The empty `CLEANABLES` map. -/
def Cleanables.empty : Cleanables := fun _ => none

/-- Result of running `cleanUpObject`: the updated map, the ids of the closures
that were invoked (in invocation order), the errors passed to `console.error`,
and the exception raised by the call, if any. -/
structure CleanupOutcome where
  map : Cleanables
  ran : List Nat
  logged : List JSError
  raised : Option JSError

/-- Accumulator for the `toRun.forEach` loop in `cleanUpObject`.  `didError`
is the `didError` flag of the source.  The source also declares `let error = null`
before the loop, but the `catch (error)` parameter shadows that binding, so the
statement `error = error` inside the catch block assigns the caught value to
itself and the outer `error` stays `null` forever; consequently the loop state
does not (cannot) carry a first-error value. -/
structure CleanupAcc where
  ran : List Nat
  logged : List JSError
  didError : Bool

/-- One iteration of the `toRun.forEach` loop in `cleanUpObject`: invoke the
closure; on a throw, if a previous closure already threw, `console.error` the
new error, otherwise just set `didError` (the `error = error` statement in the
source is a self-assignment to the shadowing catch parameter). -/
def cleanupStep (acc : CleanupAcc) (c : Closure) : CleanupAcc :=
  match c.throws with
  | none => { acc with ran := acc.ran ++ [c.id] }
  | some e =>
    if acc.didError then
      { acc with ran := acc.ran ++ [c.id], logged := acc.logged ++ [e] }
    else
      { acc with ran := acc.ran ++ [c.id], didError := true }

/-- Embedding of `cleanUpObject(obj)` from `raii.js`: look the handle up in
`CLEANABLES`; if absent, return with no effect; otherwise delete the entry,
run every closure in registration order, and — because the outer `error`
binding is shadowed as described at `CleanupAcc` — finish with `throw error`
where `error` is still `null` whenever any closure threw. -/
def cleanUpObject (m : Cleanables) (h : Nat) : CleanupOutcome :=
  match m h with
  | none => ⟨m, [], [], none⟩
  | some toRun =>
    let m1 : Cleanables := fun x => if x = h then none else m x
    let acc := toRun.foldl cleanupStep ⟨[], [], false⟩
    ⟨m1, acc.ran, acc.logged, if acc.didError then some .jsNull else none⟩

/-- The trace of one invocation of the body passed to `buildCleanable`: the
closures it registered (via `onCleanUp`, in order) before finishing, and how it
finished — throwing `e`, or returning a JS value (`none` = a null / non-object
value, `some h` = the object with handle `h`). -/
structure BuildBody where
  regs : List Closure
  result : Except JSError (Option Nat)

/-- Result of `buildCleanable`: updated `CLEANABLES`, ids of the closures run
immediately (in order), errors logged via `console.error`, the returned handle
(`none` when the call raised), and the raised exception if any. -/
structure BuildOutcome where
  map : Cleanables
  ran : List Nat
  logged : List JSError
  result : Option Nat
  raised : Option JSError

/-- Embedding of `buildCleanable(code)` from `raii.js`.  The save/restore of
`activeCleanupCode` around the call is implicit in the functional presentation;
`body.regs` is exactly the content of the fresh `cleanUpCode` array when `code`
finishes.  On a throw, and also when `code` returns a non-object (the source
throws "buildCleanable given non-object result" before `success = true`, so the
finally block still runs the closures), every registered closure runs
immediately, each individually guarded by try/`console.error`, and the map is
untouched.  On success the closures are appended to any prior record for the
returned handle. -/
def buildCleanable (m : Cleanables) (body : BuildBody) : BuildOutcome :=
  match body.result with
  | .error e =>
    ⟨m, body.regs.map (·.id), body.regs.filterMap (·.throws), none, some e⟩
  | .ok none =>
    ⟨m, body.regs.map (·.id), body.regs.filterMap (·.throws), none,
      some .errNonObjectResult⟩
  | .ok (some h) =>
    let newList := match m h with
      | some prior => prior ++ body.regs
      | none => body.regs
    ⟨fun x => if x = h then some newList else m x, [], [], some h, none⟩

/-! ## Render-session state machine (`Program.js`) -/

/-- Embedding of a linked `Program`: the WebGL program handle, the context
handle, the ids of the `ProgramInput` objects in its `inputSet`, and the
uniform-location table of the context for this program (association list from
shader identifier to location, modelling `gl.getUniformLocation`). -/
structure Program where
  glProgram : Nat
  gl : Nat
  inputSet : List Nat
  uniforms : List (Nat × Nat)
deriving DecidableEq, Repr

/-- A deferred end-of-render callback registered through `onRenderComplete`:
`id` identifies it in the invocation log, `throws` is `some e` when invoking
it throws `e` (regardless of the boolean it is passed). -/
structure Callback where
  id : Nat
  throws : Option JSError
deriving DecidableEq, Repr

/-- The module-level mutable state of `Program.js`: `activeProgram` and the
`codeOnRenderEnd` queue (which the source keeps as `null` rather than an empty
array when no callback is registered). -/
structure RenderState where
  activeProgram : Option Program
  codeOnRenderEnd : Option (List Callback)
deriving DecidableEq, Repr

/-- The trace of one invocation of the body passed to `renderInProgram`: the
callbacks it registered via `onRenderComplete` (in order) before finishing,
and how it finished — throwing, or returning a value. -/
structure RenderBody where
  callbacks : List Callback
  result : Except JSError Nat
deriving Repr

/-- Result of `renderInProgram`: final module state, the callback invocations
as `(id, didError-flag)` pairs in invocation order, the errors passed to
`console.error`, the JS return value of the call (`none` = `undefined`), and
the exception it raised, if any. -/
structure RenderOutcome where
  state : RenderState
  calls : List (Nat × Bool)
  logged : List JSError
  retVal : Option Nat
  raised : Option JSError
  /-- the argument of the single `gl.useProgram` call made at entry, or `none`
  when the call failed before binding anything -/
  usedProgram : Option Nat
deriving DecidableEq, Repr

/-- Embedding of `renderInProgram(program, code)` from `Program.js`.  If a
program is already active, throw immediately with no state change.  Otherwise
`gl.useProgram` runs (external effect, not recorded), the program becomes
active, the body runs (appending its registrations to `codeOnRenderEnd`, which
`onRenderComplete` creates on first use), and the finally block drains the
queue — each callback receives `didError` (true iff the body threw) and its own
error is caught and `console.error`ed — then clears `activeProgram`.  The
function body contains no return statement, so the JS value of the call is
always `undefined`; the exception of the body, if any, propagates after the drain. -/
def renderInProgram (p : Program) (body : RenderBody) (st : RenderState) :
    RenderOutcome :=
  match st.activeProgram with
  | some _ => ⟨st, [], [], none, some .errRenderInProgramNested, none⟩
  | none =>
    let didError := match body.result with
      | .error _ => true
      | .ok _ => false
    let queue : Option (List Callback) := match st.codeOnRenderEnd with
      | some q => some (q ++ body.callbacks)
      | none => match body.callbacks with
        | [] => none
        | cs => some cs
    let raised : Option JSError := match body.result with
      | .error e => some e
      | .ok _ => none
    match queue with
    | none =>
      ⟨⟨none, st.codeOnRenderEnd⟩, [], [], none, raised, some p.glProgram⟩
    | some toCall =>
      ⟨⟨none, none⟩, toCall.map (fun c => (c.id, didError)),
        toCall.filterMap (·.throws), none, raised, some p.glProgram⟩

/-- Embedding of `onRenderComplete(code)` from `Program.js`: usage error when
no program is active, otherwise append to the queue (creating it on first
use). -/
def onRenderComplete (cb : Callback) (st : RenderState) :
    Except JSError RenderState :=
  match st.activeProgram with
  | none => .error .errOnRenderCompleteOutside
  | some _ =>
    match st.codeOnRenderEnd with
    | some q => .ok ⟨st.activeProgram, some (q ++ [cb])⟩
    | none => .ok ⟨st.activeProgram, some [cb]⟩

/-! ## Program inputs (`ProgramInput.js`) -/

/-- The per-object state of a `ProgramInput`: its shader-declared name and the
session-scoped cache `maybeGL` / `maybeLoc` (both `null` when unresolved).
`oid` is the JS object identity used by `inputSet.has(this)`. -/
structure InputState where
  oid : Nat
  shaderIdentifier : Nat
  maybeGL : Option Nat
  maybeLoc : Option Nat
deriving DecidableEq, Repr

/-- Association-list lookup modelling `gl.getUniformLocation` for a linked
program. -/
def lookupUniform (pr : Program) (name : Nat) : Option Nat :=
  (pr.uniforms.find? (fun kv => kv.1 = name)).map (·.2)

/-- Embedding of `ProgramInput.loadGL` from `ProgramInput.js`: return at once
if the cache is populated; otherwise fail with a usage error when no program is
rendering, fail with a usage error when this input is not in the active
rendering program, fail with a declaration error when the context has no
location for the name, and otherwise populate the cache.  (On success the
source also registers an `onRenderComplete` callback clearing the cache; the
cleared cache is the `maybeGL = none` idle state our theorems start from.) -/
def loadGL (inp : InputState) (active : Option Program) :
    Except JSError InputState :=
  match inp.maybeGL with
  | some _ => .ok inp
  | none =>
    match active with
    | none => .error .errSetWithoutProgram
    | some pr =>
      if inp.oid ∈ pr.inputSet then
        match lookupUniform pr inp.shaderIdentifier with
        | none => .error (.errUnknownUniform inp.shaderIdentifier)
        | some loc =>
          .ok { inp with maybeGL := some pr.gl, maybeLoc := some loc }
      else .error .errSetDifferentProgram

/-! ## Matrix stack (`src/unnamed/part_000`)

A 4x4 matrix is a `Float32Array` of 16 entries in the source; we model the
entries as rationals, in the same flat order `m0 .. m15`. -/

/-- A 16-entry matrix, flat layout as in the `Float32Array`
literals. -/
structure Mat where
  (m0 m1 m2 m3 m4 m5 m6 m7 m8 m9 m10 m11 m12 m13 m14 m15 : ℚ)
deriving DecidableEq, Repr

/-- Flat indexing `M[k]` for `k < 16` (out-of-range reads do not occur in the
embedded code paths; they default to 0). -/
def Mat.flat (M : Mat) : Nat → ℚ
  | 0 => M.m0 | 1 => M.m1 | 2 => M.m2 | 3 => M.m3
  | 4 => M.m4 | 5 => M.m5 | 6 => M.m6 | 7 => M.m7
  | 8 => M.m8 | 9 => M.m9 | 10 => M.m10 | 11 => M.m11
  | 12 => M.m12 | 13 => M.m13 | 14 => M.m14 | 15 => M.m15
  | _ => 0

/-- The `IDENTITY` constant of the matrix-stack module. -/
def identityMat : Mat := ⟨1, 0, 0, 0, 0, 1, 0, 0, 0, 0, 1, 0, 0, 0, 0, 1⟩

/-- The product computed inline by `applyMatrixOperation(A)` from the current
top `B`, transcribed entry for entry from the `Float32Array`
literal. -/
def applyMatrixProduct (A B : Mat) : Mat :=
  ⟨A.m0 * B.m0 + A.m1 * B.m4 + A.m2 * B.m8 + A.m3 * B.m12,
   A.m0 * B.m1 + A.m1 * B.m5 + A.m2 * B.m9 + A.m3 * B.m13,
   A.m0 * B.m2 + A.m1 * B.m6 + A.m2 * B.m10 + A.m3 * B.m14,
   A.m0 * B.m3 + A.m1 * B.m7 + A.m2 * B.m11 + A.m3 * B.m15,
   A.m4 * B.m0 + A.m5 * B.m4 + A.m6 * B.m8 + A.m7 * B.m12,
   A.m4 * B.m1 + A.m5 * B.m5 + A.m6 * B.m9 + A.m7 * B.m13,
   A.m4 * B.m2 + A.m5 * B.m6 + A.m6 * B.m10 + A.m7 * B.m14,
   A.m4 * B.m3 + A.m5 * B.m7 + A.m6 * B.m11 + A.m7 * B.m15,
   A.m8 * B.m0 + A.m9 * B.m4 + A.m10 * B.m8 + A.m11 * B.m12,
   A.m8 * B.m1 + A.m9 * B.m5 + A.m10 * B.m9 + A.m11 * B.m13,
   A.m8 * B.m2 + A.m9 * B.m6 + A.m10 * B.m10 + A.m11 * B.m14,
   A.m8 * B.m3 + A.m9 * B.m7 + A.m10 * B.m11 + A.m11 * B.m15,
   A.m12 * B.m0 + A.m13 * B.m4 + A.m14 * B.m8 + A.m15 * B.m12,
   A.m12 * B.m1 + A.m13 * B.m5 + A.m14 * B.m9 + A.m15 * B.m13,
   A.m12 * B.m2 + A.m13 * B.m6 + A.m14 * B.m10 + A.m15 * B.m14,
   A.m12 * B.m3 + A.m13 * B.m7 + A.m14 * B.m11 + A.m15 * B.m15⟩

/-- The module-level mutable state of the matrix-stack module, together with
the observable effect on the driving input.  `matrixStack` is kept with its
HEAD as the most recently pushed entry, i.e. the source array reversed: JS
index `k` in an array of length `n` is list index `n - 1 - k` here, the JS
`push`/`pop` end is the list head, and the baseline JS index 0 is the
last element of the list.  `lastWritten` records the argument of the most recent
`activeInput.setMatrix(...)` call: `none` = no write yet, `some none` = the
JS value `undefined` was passed, `some (some M)` = matrix `M` was passed.
`inRender` abstracts the `Program.js` condition `activeProgram != null`, which
`onRenderComplete` checks when `useMatrixStack` registers its session-end
callback. -/
structure StackState where
  activeInput : Option Nat
  matrixStack : List Mat
  lastWritten : Option (Option Mat)
  inRender : Bool
deriving DecidableEq, Repr

/-- The module-initialisation state: no driving input, stack `[IDENTITY]`. -/
def initialStackState : StackState :=
  ⟨none, [identityMat], none, true⟩

/-- Reading `arr[k]` on the JS array whose reversed contents are `l`: gives
`undefined` (here `none`) when `k` is out of range. -/
def jsGet (l : List Mat) (k : Nat) : Option Mat :=
  if k < l.length then l.get? (l.length - 1 - k) else none

/-- The `finally` block of `subrender` / `subrenderWithArg`, as a function of
the recorded entry depth `preRunLength` and the state the body left behind.
`diff = matrixStack.length - preRunLength`; when `diff` is not zero the loop
`for (let i = 0; i < diff; ++i) matrixStack.pop()` pops `diff` entries when
`diff > 0` and none at all when `diff < 0` (the loop guard fails at once; the
truncated subtraction below matches this), and then
`input.setMatrix(matrixStack[preRunLength - 1])` writes the JS element at
index `preRunLength - 1`, which is `undefined` when the popped array is
shorter than `preRunLength`.  No statement in the block throws, so the error
component is `none` on every path. -/
def subrenderFinally (p : Nat) (st : StackState) :
    StackState × Option JSError :=
  if st.matrixStack.length = p then (st, none)
  else
    let popped := st.matrixStack.drop (st.matrixStack.length - p)
    ({ st with matrixStack := popped, lastWritten := some (jsGet popped (p - 1)) },
      none)

/-- The operations the matrix-stack module exports that can run inside a
render.  `rotateAboutY`, `rotateAboutZ` and `scaleAxes` are
`applyMatrixOperation` applied to a computed matrix and `shiftContent` is
`applyAbsoluteMatrixOperation` applied to a computed matrix, so quantifying
over arbitrary pushed matrices subsumes them. -/
inductive StackOp where
  /-- `useMatrixStack(input)` -/
  | useStack (input : Nat)
  /-- `applyAbsoluteMatrixOperation(matrix)` -/
  | pushAbsolute (M : Mat)
  /-- `applyMatrixOperation(A)` -/
  | pushComposed (A : Mat)
  /-- `subrender(code)` / `subrenderWithArg(code, arg)` where `code` performs
  the listed operations in order (and may throw after them) -/
  | subrender (body : List StackOp)

mutual

/-- Interpreter for one matrix-stack operation: the state it leaves behind and
the exception it raises, if any.  Transcribed case by case from the source
functions named on the `StackOp` constructors. -/
def runOp : StackOp → StackState → StackState × Option JSError
  | .useStack i, st =>
    if st.activeInput.isSome then (st, some .errUseMatrixStackTwice)
    else if st.inRender then
      ({ st with activeInput := some i, lastWritten := some (some identityMat) },
        none)
    else (st, some .errOnRenderCompleteOutside)
  | .pushAbsolute M, st =>
    match st.activeInput with
    | none => (st, some .errNoActiveInput)
    | some _ =>
      ({ st with matrixStack := M :: st.matrixStack,
                 lastWritten := some (some M) }, none)
  | .pushComposed A, st =>
    match st.activeInput with
    | none => (st, some .errNoActiveInput)
    | some _ =>
      match st.matrixStack with
      | [] => (st, some .errTypeError)
      | B :: rest =>
        let m := applyMatrixProduct A B
        ({ st with matrixStack := m :: B :: rest,
                   lastWritten := some (some m) }, none)
  | .subrender body, st =>
    match st.activeInput with
    | none => (st, some .errNoActiveInput)
    | some _ =>
      let p := st.matrixStack.length
      let r := runOps body st
      let f := subrenderFinally p r.1
      (f.1, match f.2 with
        | some fe => some fe
        | none => r.2)

/-- Interpreter for a sequence of matrix-stack operations; stops at the first
operation that throws (as straight-line JS code would). -/
def runOps : List StackOp → StackState → StackState × Option JSError
  | [], st => (st, none)
  | op :: ops, st =>
    match runOp op st with
    | (st1, none) => runOps ops st1
    | (st1, some e) => (st1, some e)

end

/-- The session-end callback that `useMatrixStack` registers through
`onRenderComplete`: pop every stack entry above JS index 0 and clear
`activeInput`.  Keeping the JS bottom element means keeping the LAST element
of our reversed list. -/
def useMatrixStackCleanup (st : StackState) : StackState :=
  { st with matrixStack := st.matrixStack.drop (st.matrixStack.length - 1),
            activeInput := none }

/-- The `didError` flag of the source in `renderInProgram`: initially `true`, set
to `false` only when `code(gl)` returns. -/
def bodyThrew (body : RenderBody) : Bool :=
  match body.result with
  | .error _ => true
  | .ok _ => false

/-- The exception `renderInProgram` re-raises after its finally block: the
own error of the body, if any (the finally block swallows nothing). -/
def raisedOfBody (body : RenderBody) : Option JSError :=
  match body.result with
  | .error e => some e
  | .ok _ => none

/-! ## Theorems -/

/-- C1.  `cleanUpObject` invokes every closure in registration order and
attempts all remaining closures after a failure, but it does NOT raise the
first thrown error: the `catch (error)` parameter shadows the outer
`let error = null`, `error = error` is a self-assignment, and the final
`throw error` throws `null`.  Concretely, for a handle whose record is three
closures of which the first two throw `userErr 7` and `userErr 8`, all three
run in order, only the second error is logged, and the call raises `null`
rather than `userErr 7` (contradicting the doc comment of the function, which
promises the thrown error to be re-thrown). -/
theorem cleanUpObject_throws_null_not_first_error :
    (cleanUpObject
      (fun h => if h = 0 then
        some [⟨1, some (.userErr 7)⟩, ⟨2, some (.userErr 8)⟩, ⟨3, none⟩]
      else none) 0).ran = [1, 2, 3] ∧
    (cleanUpObject
      (fun h => if h = 0 then
        some [⟨1, some (.userErr 7)⟩, ⟨2, some (.userErr 8)⟩, ⟨3, none⟩]
      else none) 0).logged = [.userErr 8] ∧
    (cleanUpObject
      (fun h => if h = 0 then
        some [⟨1, some (.userErr 7)⟩, ⟨2, some (.userErr 8)⟩, ⟨3, none⟩]
      else none) 0).raised = some .jsNull ∧
    (cleanUpObject
      (fun h => if h = 0 then
        some [⟨1, some (.userErr 7)⟩, ⟨2, some (.userErr 8)⟩, ⟨3, none⟩]
      else none) 0).raised ≠ some (.userErr 7) := by
  refine ⟨?_, ?_, ?_, ?_⟩ <;> decide

/-- The `if (!toRun) return;` fast path of `cleanUpObject`: a handle with no
record is left entirely alone. -/
theorem cleanUpObject_not_found (m : Cleanables) (h : Nat) (hm : m h = none) :
    cleanUpObject m h = ⟨m, [], [], none⟩ := by
  unfold cleanUpObject
  rw [hm]

/-- `cleanUpObject` always removes the record of the handle (when there was one,
`CLEANABLES.delete` ran; when there was none, nothing changed). -/
theorem cleanUpObject_map_cleared (m : Cleanables) (h : Nat) :
    (cleanUpObject m h).map h = none ∨ (cleanUpObject m h).map h = m h := by
  cases hm : m h with
  | none => right; rw [cleanUpObject_not_found m h hm]; exact hm
  | some l =>
    left
    show (cleanUpObject m h).map h = none
    simp [cleanUpObject, hm]

/-- C6.  `cleanUpObject` is idempotent: whatever the first call did, a second
call on the same handle finds no record (the first call deleted it, or there
never was one) and returns with the map untouched, no closure run, nothing
logged and nothing raised; and on a handle that never had a record the very
first call is already such a no-op. -/
theorem cleanUpObject_idempotent (m : Cleanables) (h : Nat) :
    cleanUpObject (cleanUpObject m h).map h =
      ⟨(cleanUpObject m h).map, [], [], none⟩ ∧
    (m h = none → cleanUpObject m h = ⟨m, [], [], none⟩) := by
  constructor
  · cases hm : m h with
    | none =>
      apply cleanUpObject_not_found
      rw [cleanUpObject_not_found m h hm]
      exact hm
    | some l =>
      apply cleanUpObject_not_found
      simp [cleanUpObject, hm]
  · exact cleanUpObject_not_found m h

/-- Witness for C6 at the empty map and handle 0. -/
theorem cleanUpObject_idempotent_witness :
    Cleanables.empty 0 = none ∧
    (cleanUpObject (cleanUpObject Cleanables.empty 0).map 0 =
      ⟨(cleanUpObject Cleanables.empty 0).map, [], [], none⟩ ∧
    (Cleanables.empty 0 = none →
      cleanUpObject Cleanables.empty 0 = ⟨Cleanables.empty, [], [], none⟩)) :=
  ⟨rfl, cleanUpObject_idempotent Cleanables.empty 0⟩

/-- C5.  When the body of `buildCleanable` registers closures and then throws,
every registered closure runs immediately in registration order, each with its
own error is caught and logged without stopping the others, the `CLEANABLES`
map is unchanged (no record is created for any handle), the original error
propagates, and a subsequent `cleanUpObject` on any handle that has no record
(in particular the would-be handle of the failed build) is a no-op. -/
theorem buildCleanable_failure_runs_all (m : Cleanables) (regs : List Closure)
    (e : JSError) (h : Nat) (hh : m h = none) :
    (buildCleanable m ⟨regs, .error e⟩).ran = regs.map (·.id) ∧
    (buildCleanable m ⟨regs, .error e⟩).logged = regs.filterMap (·.throws) ∧
    (buildCleanable m ⟨regs, .error e⟩).map = m ∧
    (buildCleanable m ⟨regs, .error e⟩).result = none ∧
    (buildCleanable m ⟨regs, .error e⟩).raised = some e ∧
    cleanUpObject (buildCleanable m ⟨regs, .error e⟩).map h =
      ⟨(buildCleanable m ⟨regs, .error e⟩).map, [], [], none⟩ := by
  exact ⟨rfl, rfl, rfl, rfl, rfl, cleanUpObject_not_found _ h hh⟩

/-- Witness for C5: two closures (the first one itself faulty) registered
before the body throws `userErr 9`. -/
theorem buildCleanable_failure_runs_all_witness :
    Cleanables.empty 0 = none ∧
    ((buildCleanable Cleanables.empty
        ⟨[⟨1, some (.userErr 5)⟩, ⟨2, none⟩], .error (.userErr 9)⟩).ran =
      [⟨1, some (.userErr 5)⟩, ⟨2, none⟩].map (Closure.id ·) ∧
    (buildCleanable Cleanables.empty
        ⟨[⟨1, some (.userErr 5)⟩, ⟨2, none⟩], .error (.userErr 9)⟩).logged =
      [⟨1, some (.userErr 5)⟩, ⟨2, none⟩].filterMap (Closure.throws ·) ∧
    (buildCleanable Cleanables.empty
        ⟨[⟨1, some (.userErr 5)⟩, ⟨2, none⟩], .error (.userErr 9)⟩).map =
      Cleanables.empty ∧
    (buildCleanable Cleanables.empty
        ⟨[⟨1, some (.userErr 5)⟩, ⟨2, none⟩], .error (.userErr 9)⟩).result =
      none ∧
    (buildCleanable Cleanables.empty
        ⟨[⟨1, some (.userErr 5)⟩, ⟨2, none⟩], .error (.userErr 9)⟩).raised =
      some (.userErr 9) ∧
    cleanUpObject (buildCleanable Cleanables.empty
        ⟨[⟨1, some (.userErr 5)⟩, ⟨2, none⟩], .error (.userErr 9)⟩).map 0 =
      ⟨(buildCleanable Cleanables.empty
        ⟨[⟨1, some (.userErr 5)⟩, ⟨2, none⟩], .error (.userErr 9)⟩).map,
        [], [], none⟩) :=
  ⟨rfl, buildCleanable_failure_runs_all Cleanables.empty _ _ 0 rfl⟩

/-- C10.  `renderInProgram` contains no return statement, so its JS value is
always `undefined`: whatever value the body returns is discarded and never
passed back to the caller (despite the doc comment promising the result of
`code()`). -/
theorem renderInProgram_returns_undefined (p : Program) (body : RenderBody)
    (st : RenderState) : (renderInProgram p body st).retVal = none := by
  unfold renderInProgram
  cases st.activeProgram with
  | some _ => rfl
  | none =>
    cases st.codeOnRenderEnd with
    | some q => rfl
    | none => cases body.callbacks with
      | nil => rfl
      | cons c cs => rfl

/-- C3.  When `renderInProgram` is entered from the Idle state, however the
body finishes it drains the deferred-callback queue in FIFO registration
order, passing every callback the `didError` flag (true iff the body threw);
the own error of a callback is caught and logged — it never propagates and never
stops the remaining callbacks (every registered callback appears in the call
log); the state returns to Idle unconditionally; and the original
error of the body, if any, is re-raised after the drain. -/
theorem renderInProgram_drains_and_reraises (p : Program) (body : RenderBody)
    (st : RenderState) (hidle : st.activeProgram = none)
    (hq : st.codeOnRenderEnd = none) :
    (renderInProgram p body st).calls =
      body.callbacks.map (fun c => (c.id, bodyThrew body)) ∧
    (renderInProgram p body st).logged = body.callbacks.filterMap (·.throws) ∧
    (renderInProgram p body st).state.activeProgram = none ∧
    (renderInProgram p body st).state.codeOnRenderEnd = none ∧
    (renderInProgram p body st).raised = raisedOfBody body := by
  obtain ⟨ap, q⟩ := st
  subst hidle
  subst hq
  cases hcb : body.callbacks with
  | nil =>
    simp [renderInProgram, bodyThrew, raisedOfBody, hcb]
  | cons c cs =>
    simp [renderInProgram, bodyThrew, raisedOfBody, hcb]

/-- Witness for C3: a body that registers two callbacks (the first one
throwing) and then itself throws. -/
theorem renderInProgram_drains_and_reraises_witness :
    (RenderState.mk none none).activeProgram = none ∧
    (RenderState.mk none none).codeOnRenderEnd = none ∧
    ((renderInProgram ⟨0, 0, [], []⟩
        ⟨[⟨1, some (.userErr 4)⟩, ⟨2, none⟩], .error (.userErr 6)⟩
        ⟨none, none⟩).calls =
      ([⟨1, some (.userErr 4)⟩, ⟨2, none⟩] : List Callback).map
        (fun c => (c.id, bodyThrew ⟨[⟨1, some (.userErr 4)⟩, ⟨2, none⟩],
          .error (.userErr 6)⟩)) ∧
    (renderInProgram ⟨0, 0, [], []⟩
        ⟨[⟨1, some (.userErr 4)⟩, ⟨2, none⟩], .error (.userErr 6)⟩
        ⟨none, none⟩).logged =
      [⟨1, some (.userErr 4)⟩, ⟨2, none⟩].filterMap (Callback.throws ·) ∧
    (renderInProgram ⟨0, 0, [], []⟩
        ⟨[⟨1, some (.userErr 4)⟩, ⟨2, none⟩], .error (.userErr 6)⟩
        ⟨none, none⟩).state.activeProgram = none ∧
    (renderInProgram ⟨0, 0, [], []⟩
        ⟨[⟨1, some (.userErr 4)⟩, ⟨2, none⟩], .error (.userErr 6)⟩
        ⟨none, none⟩).state.codeOnRenderEnd = none ∧
    (renderInProgram ⟨0, 0, [], []⟩
        ⟨[⟨1, some (.userErr 4)⟩, ⟨2, none⟩], .error (.userErr 6)⟩
        ⟨none, none⟩).raised =
      raisedOfBody ⟨[⟨1, some (.userErr 4)⟩, ⟨2, none⟩], .error (.userErr 6)⟩) :=
  ⟨rfl, rfl, renderInProgram_drains_and_reraises _ _ _ rfl rfl⟩

/-- C4.  Mutual exclusion and input scoping.  (1) Calling `renderInProgram`
while a program is active raises the usage error
"renderInProgram called during another renderInProgram" and changes nothing:
the state, including the active program, is untouched, no callback runs, and
`gl.useProgram` is never reached, so at most one session is ever active.
(2) `ProgramInput.loadGL` (reached by every `set`) on an unresolved input
raises a usage error when no program is rendering, and (3) raises a usage
error when the input is not in the `inputSet` of the active program. -/
theorem session_exclusive_and_input_scoped
    (p q pr : Program) (body : RenderBody) (st : RenderState)
    (inp inp2 : InputState)
    (hact : st.activeProgram = some q)
    (h2 : inp.maybeGL = none)
    (h3 : inp2.maybeGL = none) (hmem : inp2.oid ∉ pr.inputSet) :
    (renderInProgram p body st =
        ⟨st, [], [], none, some .errRenderInProgramNested, none⟩ ∧
      JSError.errRenderInProgramNested.isUsage = true) ∧
    (loadGL inp none = .error .errSetWithoutProgram ∧
      JSError.errSetWithoutProgram.isUsage = true) ∧
    (loadGL inp2 (some pr) = .error .errSetDifferentProgram ∧
      JSError.errSetDifferentProgram.isUsage = true) := by
  refine ⟨⟨?_, rfl⟩, ⟨?_, rfl⟩, ⟨?_, rfl⟩⟩
  · unfold renderInProgram
    rw [hact]
  · unfold loadGL
    rw [h2]
  · unfold loadGL
    rw [h3]
    simp [hmem]

/-- Witness for C4 at concrete programs and inputs. -/
theorem session_exclusive_and_input_scoped_witness :
    (RenderState.mk (some ⟨5, 1, [], []⟩) none).activeProgram =
      some ⟨5, 1, [], []⟩ ∧
    (InputState.mk 3 7 none none).maybeGL = none ∧
    (InputState.mk 4 8 none none).maybeGL = none ∧
    (InputState.mk 4 8 none none).oid ∉ Program.inputSet ⟨6, 1, [9], []⟩ ∧
    ((renderInProgram ⟨5, 1, [], []⟩ ⟨[], .ok 0⟩
        ⟨some ⟨5, 1, [], []⟩, none⟩ =
        ⟨⟨some ⟨5, 1, [], []⟩, none⟩, [], [], none,
          some .errRenderInProgramNested, none⟩ ∧
      JSError.errRenderInProgramNested.isUsage = true) ∧
    (loadGL ⟨3, 7, none, none⟩ none = .error .errSetWithoutProgram ∧
      JSError.errSetWithoutProgram.isUsage = true) ∧
    (loadGL ⟨4, 8, none, none⟩ (some ⟨6, 1, [9], []⟩) =
        .error .errSetDifferentProgram ∧
      JSError.errSetDifferentProgram.isUsage = true)) :=
  ⟨rfl, rfl, rfl, by decide,
    session_exclusive_and_input_scoped ⟨5, 1, [], []⟩ ⟨5, 1, [], []⟩
      ⟨6, 1, [9], []⟩ ⟨[], .ok 0⟩ ⟨some ⟨5, 1, [], []⟩, none⟩
      ⟨3, 7, none, none⟩ ⟨4, 8, none, none⟩ rfl rfl rfl (by decide)⟩

/-- C7.  `applyMatrixOperation(A)` with current top `B` pushes exactly the
matrix whose flat entries are given by the inline `Float32Array` literal, and
writes it to the driving input; and that matrix is the row-by-column product
`A x B`: its flat entry at index `4*r + c` is the sum over `k` of
`A[4*r + k] * B[4*k + c]` (so `new = matrix x top` in the convention the spec
states). -/
theorem applyMatrixOperation_is_product (st : StackState) (i : Nat) (A B : Mat)
    (rest : List Mat) (ha : st.activeInput = some i)
    (hs : st.matrixStack = B :: rest) :
    (runOp (.pushComposed A) st).1.matrixStack =
      applyMatrixProduct A B :: st.matrixStack ∧
    (runOp (.pushComposed A) st).1.lastWritten =
      some (some (applyMatrixProduct A B)) ∧
    (runOp (.pushComposed A) st).2 = none ∧
    ∀ r c : Fin 4, (applyMatrixProduct A B).flat (4 * r.val + c.val) =
      ∑ k : Fin 4, A.flat (4 * r.val + k.val) * B.flat (4 * k.val + c.val) := by
  obtain ⟨ai, stk, lw, ir⟩ := st
  simp only at ha hs
  subst ha
  subst hs
  refine ⟨?_, ?_, ?_, ?_⟩
  · simp [runOp]
  · simp [runOp]
  · simp [runOp]
  · intro r c
    fin_cases r <;> fin_cases c <;>
      simp [applyMatrixProduct, Mat.flat, Fin.sum_univ_four]

/-- Witness for C7: composing a concrete matrix onto an identity top. -/
theorem applyMatrixOperation_is_product_witness :
    (StackState.mk (some 0) [identityMat] (some (some identityMat)) true).activeInput =
      some 0 ∧
    (StackState.mk (some 0) [identityMat] (some (some identityMat)) true).matrixStack =
      identityMat :: [] ∧
    ((runOp (.pushComposed ⟨2, 0, 0, 0, 0, 3, 0, 0, 0, 0, 4, 0, 1, 2, 3, 1⟩)
        ⟨some 0, [identityMat], some (some identityMat), true⟩).1.matrixStack =
      applyMatrixProduct ⟨2, 0, 0, 0, 0, 3, 0, 0, 0, 0, 4, 0, 1, 2, 3, 1⟩
          identityMat ::
        (StackState.mk (some 0) [identityMat] (some (some identityMat))
          true).matrixStack ∧
    (runOp (.pushComposed ⟨2, 0, 0, 0, 0, 3, 0, 0, 0, 0, 4, 0, 1, 2, 3, 1⟩)
        ⟨some 0, [identityMat], some (some identityMat), true⟩).1.lastWritten =
      some (some (applyMatrixProduct
        ⟨2, 0, 0, 0, 0, 3, 0, 0, 0, 0, 4, 0, 1, 2, 3, 1⟩ identityMat)) ∧
    (runOp (.pushComposed ⟨2, 0, 0, 0, 0, 3, 0, 0, 0, 0, 4, 0, 1, 2, 3, 1⟩)
        ⟨some 0, [identityMat], some (some identityMat), true⟩).2 = none ∧
    ∀ r c : Fin 4,
      (applyMatrixProduct ⟨2, 0, 0, 0, 0, 3, 0, 0, 0, 0, 4, 0, 1, 2, 3, 1⟩
        identityMat).flat (4 * r.val + c.val) =
      ∑ k : Fin 4,
        Mat.flat ⟨2, 0, 0, 0, 0, 3, 0, 0, 0, 0, 4, 0, 1, 2, 3, 1⟩
            (4 * r.val + k.val) *
          identityMat.flat (4 * k.val + c.val)) :=
  ⟨rfl, rfl,
    applyMatrixOperation_is_product
      ⟨some 0, [identityMat], some (some identityMat), true⟩ 0
      ⟨2, 0, 0, 0, 0, 3, 0, 0, 0, 0, 4, 0, 1, 2, 3, 1⟩ identityMat [] rfl rfl⟩

/-- C9 counterexample.  At a concrete post-body state whose stack is shorter
than the recorded entry depth (the body popped more than it pushed:
`preRunLength = 2`, one entry left), the scope-exit handler of `subrender`
raises no error at all — in particular no usage error — refuting the claim
that such a state is surfaced as a usage error.  (It also leaves the stack
untouched and passes the out-of-range, `undefined` element
`matrixStack[preRunLength - 1]` to the driving input.) -/
theorem subrenderFinally_negative_raises_nothing :
    (subrenderFinally 2
      ⟨some 0, [identityMat], some (some identityMat), true⟩).2 = none ∧
    (¬ ∃ e : JSError, (subrenderFinally 2
      ⟨some 0, [identityMat], some (some identityMat), true⟩).2 = some e ∧
        e.isUsage = true) ∧
    (subrenderFinally 2
      ⟨some 0, [identityMat], some (some identityMat), true⟩).1.matrixStack =
      [identityMat] ∧
    (subrenderFinally 2
      ⟨some 0, [identityMat], some (some identityMat), true⟩).1.lastWritten =
      some none := by
  refine ⟨by decide, ?_, by decide, by decide⟩
  rintro ⟨e, he, -⟩
  have : (subrenderFinally 2
      ⟨some 0, [identityMat], some (some identityMat), true⟩).2 = none := by
    decide
  rw [this] at he
  exact Option.noConfusion he

/-- C9 amended.  When the body of `subrender` / `subrenderWithArg` ends with a
net negative stack-depth change, the scope-exit handler pops nothing at all
(so in particular the baseline identity entry survives), but it raises no
usage error: instead it silently passes the out-of-range (`undefined`) element
`matrixStack[preRunLength - 1]` to the driving input. -/
theorem subrenderFinally_negative_diff (p : Nat) (st : StackState)
    (hlt : st.matrixStack.length < p) :
    (subrenderFinally p st).1.matrixStack = st.matrixStack ∧
    (subrenderFinally p st).1.lastWritten = some none ∧
    (subrenderFinally p st).2 = none := by
  have hne : st.matrixStack.length ≠ p := Nat.ne_of_lt hlt
  have hz : st.matrixStack.length - p = 0 := Nat.sub_eq_zero_of_le (le_of_lt hlt)
  have hk : ¬ (p - 1 < st.matrixStack.length) := by omega
  unfold subrenderFinally
  rw [if_neg hne]
  simp [hz, jsGet, hk]

/-- Witness for C9 amended, at the counterexample state. -/
theorem subrenderFinally_negative_diff_witness :
    (StackState.mk (some 0) [identityMat] (some (some identityMat))
        true).matrixStack.length < 2 ∧
    ((subrenderFinally 2
      ⟨some 0, [identityMat], some (some identityMat), true⟩).1.matrixStack =
      (StackState.mk (some 0) [identityMat] (some (some identityMat))
        true).matrixStack ∧
    (subrenderFinally 2
      ⟨some 0, [identityMat], some (some identityMat), true⟩).1.lastWritten =
      some none ∧
    (subrenderFinally 2
      ⟨some 0, [identityMat], some (some identityMat), true⟩).2 = none) :=
  ⟨by decide, subrenderFinally_negative_diff 2
    ⟨some 0, [identityMat], some (some identityMat), true⟩ (by decide)⟩

/-- Reading the JS element at index `length - 1` (the top of the source array)
gives the head of our reversed list. -/
theorem jsGet_top (l : List Mat) : jsGet l (l.length - 1) = l.head? := by
  cases l with
  | nil => rfl
  | cons a t => simp [jsGet]

/-- The `finally` block of `subrender` preserves a bottom identity entry
whenever the recorded entry depth was at least 1 (it never pops past
`preRunLength` entries, and pops nothing when the stack already shrank), and
it never touches `activeInput` or `inRender`. -/
theorem subrenderFinally_bottom (p : Nat) (st1 : StackState) (hp : 1 ≤ p)
    (h : ∃ rest, st1.matrixStack = rest ++ [identityMat]) :
    (∃ rest, (subrenderFinally p st1).1.matrixStack = rest ++ [identityMat]) ∧
    (subrenderFinally p st1).1.inRender = st1.inRender ∧
    (subrenderFinally p st1).1.activeInput = st1.activeInput := by
  obtain ⟨rest, hr⟩ := h
  unfold subrenderFinally
  by_cases he : st1.matrixStack.length = p
  · rw [if_pos he]
    exact ⟨⟨rest, hr⟩, rfl, rfl⟩
  · rw [if_neg he]
    refine ⟨?_, rfl, rfl⟩
    by_cases hge : p ≤ st1.matrixStack.length
    · refine ⟨rest.drop (st1.matrixStack.length - p), ?_⟩
      show st1.matrixStack.drop (st1.matrixStack.length - p) = _
      have hlen : st1.matrixStack.length = rest.length + 1 := by
        rw [hr]; simp
      have hle : st1.matrixStack.length - p ≤ rest.length := by omega
      rw [hr]
      have hle2 : (rest ++ [identityMat]).length - p ≤ rest.length := by
        simp only [List.length_append, List.length_cons, List.length_nil]
        omega
      rw [List.drop_append_of_le_length hle2]
    · have hz : st1.matrixStack.length - p = 0 :=
        Nat.sub_eq_zero_of_le (le_of_not_le hge)
      refine ⟨rest, ?_⟩
      show st1.matrixStack.drop (st1.matrixStack.length - p) = _
      rw [hz, List.drop_zero, hr]

mutual

/-- Every single matrix-stack operation preserves the invariant "the stack is
some tower on top of a bottom identity entry", and leaves `inRender`
unchanged. -/
theorem runOp_bottom (op : StackOp) (st : StackState)
    (h : ∃ rest, st.matrixStack = rest ++ [identityMat]) :
    (∃ rest, (runOp op st).1.matrixStack = rest ++ [identityMat]) ∧
    (runOp op st).1.inRender = st.inRender := by
  cases op with
  | useStack j =>
    unfold runOp
    by_cases h1 : st.activeInput.isSome = true
    · rw [if_pos h1]
      exact ⟨h, rfl⟩
    · rw [if_neg h1]
      by_cases h2 : st.inRender = true
      · rw [if_pos h2]
        exact ⟨h, rfl⟩
      · rw [if_neg h2]
        exact ⟨h, rfl⟩
  | pushAbsolute M =>
    unfold runOp
    cases ha : st.activeInput with
    | none => exact ⟨h, rfl⟩
    | some i =>
      obtain ⟨rest, hr⟩ := h
      exact ⟨⟨M :: rest, by rw [List.cons_append, ← hr]⟩, rfl⟩
  | pushComposed A =>
    unfold runOp
    cases ha : st.activeInput with
    | none => exact ⟨h, rfl⟩
    | some i =>
      cases hs : st.matrixStack with
      | nil => exact ⟨h, rfl⟩
      | cons B rest0 =>
        obtain ⟨rest, hr⟩ := h
        rw [hs] at hr
        exact ⟨⟨applyMatrixProduct A B :: rest,
          by rw [List.cons_append, ← hr]⟩, rfl⟩
  | subrender body =>
    unfold runOp
    cases ha : st.activeInput with
    | none => exact ⟨h, rfl⟩
    | some i =>
      obtain ⟨hb, hir⟩ := runOps_bottom body st h
      have hp : 1 ≤ st.matrixStack.length := by
        obtain ⟨rest, hr⟩ := h
        rw [hr]; simp
      obtain ⟨hb2, hir2, _⟩ :=
        subrenderFinally_bottom st.matrixStack.length (runOps body st).1 hp hb
      exact ⟨hb2, by rw [hir2, hir]⟩

/-- Sequences of matrix-stack operations (stopping at the first error, as the
interpreter does) preserve the bottom-identity invariant and `inRender`. -/
theorem runOps_bottom (ops : List StackOp) (st : StackState)
    (h : ∃ rest, st.matrixStack = rest ++ [identityMat]) :
    (∃ rest, (runOps ops st).1.matrixStack = rest ++ [identityMat]) ∧
    (runOps ops st).1.inRender = st.inRender := by
  cases ops with
  | nil => exact ⟨h, rfl⟩
  | cons op ops2 =>
    have hb := runOp_bottom op st h
    unfold runOps
    rcases he : runOp op st with ⟨st1, e⟩
    rw [he] at hb
    cases e with
    | none =>
      obtain ⟨hb2, hir2⟩ := runOps_bottom ops2 st1 hb.1
      exact ⟨hb2, by rw [hir2, hb.2]⟩
    | some er => exact hb

end

/-- C8.  Starting from any state whose stack has the identity matrix at the
bottom (in particular the module-initialisation state `[IDENTITY]`), after any
sequence of matrix-stack operations the stack is non-empty with the identity
still at the bottom; the session-end callback registered by `useMatrixStack`
resets the stack to exactly `[IDENTITY]` and clears the driving input; and a
`useMatrixStack` call in a fresh session then starts from the identity: it
leaves the stack at `[IDENTITY]` and writes the identity matrix to its input,
observing nothing of the transforms of the prior session. -/
theorem matrixStack_bottom_identity (st : StackState) (ops : List StackOp)
    (j : Nat) (h : ∃ rest, st.matrixStack = rest ++ [identityMat])
    (hir : st.inRender = true) :
    (∃ rest, (runOps ops st).1.matrixStack = rest ++ [identityMat]) ∧
    (runOps ops st).1.matrixStack ≠ [] ∧
    (runOps ops st).1.matrixStack.getLast? = some identityMat ∧
    (useMatrixStackCleanup (runOps ops st).1).matrixStack = [identityMat] ∧
    (useMatrixStackCleanup (runOps ops st).1).activeInput = none ∧
    (runOp (.useStack j)
      (useMatrixStackCleanup (runOps ops st).1)).1.matrixStack =
      [identityMat] ∧
    (runOp (.useStack j)
      (useMatrixStackCleanup (runOps ops st).1)).1.lastWritten =
      some (some identityMat) ∧
    (runOp (.useStack j)
      (useMatrixStackCleanup (runOps ops st).1)).1.activeInput = some j := by
  obtain ⟨hb, hirun⟩ := runOps_bottom ops st h
  obtain ⟨rest, hr⟩ := hb
  have hne : (runOps ops st).1.matrixStack ≠ [] := by
    rw [hr]; simp
  have hlast : (runOps ops st).1.matrixStack.getLast? = some identityMat := by
    rw [hr]
    exact List.getLast?_concat rest
  have hclean : (useMatrixStackCleanup (runOps ops st).1).matrixStack =
      [identityMat] := by
    show (runOps ops st).1.matrixStack.drop
        ((runOps ops st).1.matrixStack.length - 1) = [identityMat]
    rw [hr]
    have hlen : (rest ++ [identityMat]).length - 1 = rest.length := by
      simp
    rw [hlen, List.drop_left]
  have hcleanai : (useMatrixStackCleanup (runOps ops st).1).activeInput =
      none := rfl
  have hcir : (useMatrixStackCleanup (runOps ops st).1).inRender = true := by
    show (runOps ops st).1.inRender = true
    rw [hirun, hir]
  have hrun : runOp (.useStack j) (useMatrixStackCleanup (runOps ops st).1) =
      ({ useMatrixStackCleanup (runOps ops st).1 with
          activeInput := some j,
          lastWritten := some (some identityMat) }, none) := by
    unfold runOp
    rw [hcleanai]
    rw [if_neg (by simp)]
    rw [if_pos hcir]
  refine ⟨⟨rest, hr⟩, hne, hlast, hclean, hcleanai, ?_, ?_, ?_⟩
  · rw [hrun]
    exact hclean
  · rw [hrun]
  · rw [hrun]

/-- Witness for C8: a session that pushes two matrices and runs a nested
subrender before ending. -/
theorem matrixStack_bottom_identity_witness :
    (∃ rest, initialStackState.matrixStack = rest ++ [identityMat]) ∧
    initialStackState.inRender = true ∧
    ((∃ rest, (runOps [.useStack 0,
        .pushAbsolute ⟨2, 0, 0, 0, 0, 2, 0, 0, 0, 0, 2, 0, 0, 0, 0, 1⟩,
        .subrender [.pushComposed identityMat]]
        initialStackState).1.matrixStack = rest ++ [identityMat]) ∧
    (runOps [.useStack 0,
        .pushAbsolute ⟨2, 0, 0, 0, 0, 2, 0, 0, 0, 0, 2, 0, 0, 0, 0, 1⟩,
        .subrender [.pushComposed identityMat]]
        initialStackState).1.matrixStack ≠ [] ∧
    (runOps [.useStack 0,
        .pushAbsolute ⟨2, 0, 0, 0, 0, 2, 0, 0, 0, 0, 2, 0, 0, 0, 0, 1⟩,
        .subrender [.pushComposed identityMat]]
        initialStackState).1.matrixStack.getLast? = some identityMat ∧
    (useMatrixStackCleanup (runOps [.useStack 0,
        .pushAbsolute ⟨2, 0, 0, 0, 0, 2, 0, 0, 0, 0, 2, 0, 0, 0, 0, 1⟩,
        .subrender [.pushComposed identityMat]]
        initialStackState).1).matrixStack = [identityMat] ∧
    (useMatrixStackCleanup (runOps [.useStack 0,
        .pushAbsolute ⟨2, 0, 0, 0, 0, 2, 0, 0, 0, 0, 2, 0, 0, 0, 0, 1⟩,
        .subrender [.pushComposed identityMat]]
        initialStackState).1).activeInput = none ∧
    (runOp (.useStack 9) (useMatrixStackCleanup (runOps [.useStack 0,
        .pushAbsolute ⟨2, 0, 0, 0, 0, 2, 0, 0, 0, 0, 2, 0, 0, 0, 0, 1⟩,
        .subrender [.pushComposed identityMat]]
        initialStackState).1)).1.matrixStack = [identityMat] ∧
    (runOp (.useStack 9) (useMatrixStackCleanup (runOps [.useStack 0,
        .pushAbsolute ⟨2, 0, 0, 0, 0, 2, 0, 0, 0, 0, 2, 0, 0, 0, 0, 1⟩,
        .subrender [.pushComposed identityMat]]
        initialStackState).1)).1.lastWritten = some (some identityMat) ∧
    (runOp (.useStack 9) (useMatrixStackCleanup (runOps [.useStack 0,
        .pushAbsolute ⟨2, 0, 0, 0, 0, 2, 0, 0, 0, 0, 2, 0, 0, 0, 0, 1⟩,
        .subrender [.pushComposed identityMat]]
        initialStackState).1)).1.activeInput = some 9) :=
  ⟨⟨[], rfl⟩, rfl,
    matrixStack_bottom_identity initialStackState
      [.useStack 0,
        .pushAbsolute ⟨2, 0, 0, 0, 0, 2, 0, 0, 0, 0, 2, 0, 0, 0, 0, 1⟩,
        .subrender [.pushComposed identityMat]] 9 ⟨[], rfl⟩ rfl⟩

/-- The `finally` block of `subrender` never touches `activeInput`. -/
theorem subrenderFinally_activeInput (p : Nat) (st1 : StackState) :
    (subrenderFinally p st1).1.activeInput = st1.activeInput := by
  unfold subrenderFinally
  by_cases he : st1.matrixStack.length = p
  · rw [if_pos he]
  · rw [if_neg he]

/-- When the body left the stack depth exactly at the recorded entry depth,
the `finally` block of `subrender` does nothing at all (the `diff !== 0` guard
fails, so there is no pop and no write). -/
theorem subrenderFinally_balanced (p : Nat) (st1 : StackState)
    (he : st1.matrixStack.length = p) :
    subrenderFinally p st1 = (st1, none) := by
  unfold subrenderFinally
  rw [if_pos he]

/-- When the body left a non-empty tower `pre` on top of the entry stack
`s0`, the `finally` block of `subrender` pops exactly `pre` and re-writes the
then-top element (the old top, `s0.head?`) to the driving input. -/
theorem subrenderFinally_restores (s0 pre : List Mat) (st1 : StackState)
    (hne : pre ≠ []) (hs : st1.matrixStack = pre ++ s0) :
    (subrenderFinally s0.length st1).1.matrixStack = s0 ∧
    (subrenderFinally s0.length st1).1.lastWritten = some s0.head? := by
  have hneq : st1.matrixStack.length ≠ s0.length := by
    rw [hs]
    simp only [List.length_append]
    have : 0 < pre.length := List.length_pos.mpr hne
    omega
  have hdrop : st1.matrixStack.drop (st1.matrixStack.length - s0.length) =
      s0 := by
    rw [hs]
    have h2 : (pre ++ s0).length - s0.length = pre.length := by simp
    rw [h2, List.drop_left]
  unfold subrenderFinally
  rw [if_neg hneq]
  constructor
  · exact hdrop
  · show some (jsGet (st1.matrixStack.drop (st1.matrixStack.length - s0.length))
        (s0.length - 1)) = some s0.head?
    rw [hdrop, jsGet_top]

mutual

/-- Inside a driven scope (`activeInput = some i`, last write = current top),
a single matrix-stack operation only ever extends the stack (the final stack
is `pre ++` the entry stack for some tower `pre`), keeps the driving input,
and re-establishes "last write = current top". -/
theorem runOp_scope (op : StackOp) (st : StackState) (i : Nat)
    (ha : st.activeInput = some i)
    (hw : st.lastWritten = some st.matrixStack.head?) :
    (∃ pre, (runOp op st).1.matrixStack = pre ++ st.matrixStack) ∧
    (runOp op st).1.activeInput = some i ∧
    (runOp op st).1.lastWritten = some (runOp op st).1.matrixStack.head? := by
  cases op with
  | useStack j =>
    unfold runOp
    rw [ha]
    exact ⟨⟨[], rfl⟩, ha, hw⟩
  | pushAbsolute M =>
    unfold runOp
    rw [ha]
    exact ⟨⟨[M], rfl⟩, rfl, rfl⟩
  | pushComposed A =>
    unfold runOp
    rw [ha]
    cases hs : st.matrixStack with
    | nil =>
      refine ⟨⟨[], by simp [hs]⟩, ha, ?_⟩
      show st.lastWritten = some st.matrixStack.head?
      exact hw
    | cons B rest0 =>
      exact ⟨⟨[applyMatrixProduct A B], rfl⟩, rfl, rfl⟩
  | subrender body =>
    obtain ⟨⟨pre1, hp1⟩, ha1, hw1⟩ := runOps_scope body st i ha hw
    have key :
        (subrenderFinally st.matrixStack.length
          (runOps body st).1).1.matrixStack = st.matrixStack ∧
        (subrenderFinally st.matrixStack.length
          (runOps body st).1).1.lastWritten = some st.matrixStack.head? ∧
        (subrenderFinally st.matrixStack.length
          (runOps body st).1).1.activeInput = some i := by
      by_cases hpre : pre1 = []
      · subst hpre
        rw [List.nil_append] at hp1
        have he : (runOps body st).1.matrixStack.length =
            st.matrixStack.length := by rw [hp1]
        rw [subrenderFinally_balanced _ _ he]
        exact ⟨hp1, by rw [hw1, hp1], ha1⟩
      · obtain ⟨h1, h2⟩ := subrenderFinally_restores st.matrixStack pre1
          (runOps body st).1 hpre hp1
        exact ⟨h1, h2, by rw [subrenderFinally_activeInput]; exact ha1⟩
    unfold runOp
    rw [ha]
    refine ⟨⟨[], ?_⟩, ?_, ?_⟩
    · show (subrenderFinally st.matrixStack.length
          (runOps body st).1).1.matrixStack = [] ++ st.matrixStack
      rw [List.nil_append]
      exact key.1
    · show (subrenderFinally st.matrixStack.length
          (runOps body st).1).1.activeInput = some i
      exact key.2.2
    · show (subrenderFinally st.matrixStack.length
          (runOps body st).1).1.lastWritten = _
      rw [key.2.1, key.1]

/-- Inside a driven scope, a sequence of matrix-stack operations (stopping at
the first error) only ever extends the stack, keeps the driving input, and
re-establishes "last write = current top". -/
theorem runOps_scope (ops : List StackOp) (st : StackState) (i : Nat)
    (ha : st.activeInput = some i)
    (hw : st.lastWritten = some st.matrixStack.head?) :
    (∃ pre, (runOps ops st).1.matrixStack = pre ++ st.matrixStack) ∧
    (runOps ops st).1.activeInput = some i ∧
    (runOps ops st).1.lastWritten =
      some (runOps ops st).1.matrixStack.head? := by
  cases ops with
  | nil => exact ⟨⟨[], rfl⟩, ha, hw⟩
  | cons op ops2 =>
    obtain ⟨⟨pre1, hp1⟩, ha1, hw1⟩ := runOp_scope op st i ha hw
    unfold runOps
    rcases he : runOp op st with ⟨st1, e⟩
    rw [he] at hp1 ha1 hw1
    cases e with
    | some er => exact ⟨⟨pre1, hp1⟩, ha1, hw1⟩
    | none =>
      obtain ⟨⟨pre2, hp2⟩, ha2, hw2⟩ := runOps_scope ops2 st1 i ha1 hw1
      refine ⟨⟨pre2 ++ pre1, ?_⟩, ha2, hw2⟩
      rw [hp2, hp1, List.append_assoc]

end

/-- C2.  For any body made of `applyMatrixOperation` / 
`applyAbsoluteMatrixOperation` calls (including nested subrenders), run inside
`subrender` / `subrenderWithArg` from a driven state whose last write is the
current top: whether the body ran to completion or threw partway (the
interpreter stops at the first error, exactly like an exception unwinding to
the `finally` block), after the scope exits the stack — hence its depth — and
the matrix last written to the driving input are exactly what they were before
the scope began, and the driving input is unchanged. -/
theorem subrender_restores_scope (st : StackState) (i : Nat)
    (body : List StackOp) (ha : st.activeInput = some i)
    (hw : st.lastWritten = some st.matrixStack.head?) :
    (runOp (.subrender body) st).1.matrixStack = st.matrixStack ∧
    (runOp (.subrender body) st).1.matrixStack.length =
      st.matrixStack.length ∧
    (runOp (.subrender body) st).1.lastWritten = st.lastWritten ∧
    (runOp (.subrender body) st).1.activeInput = st.activeInput := by
  obtain ⟨⟨pre1, hp1⟩, ha1, hw1⟩ := runOps_scope body st i ha hw
  have key :
      (subrenderFinally st.matrixStack.length
        (runOps body st).1).1.matrixStack = st.matrixStack ∧
      (subrenderFinally st.matrixStack.length
        (runOps body st).1).1.lastWritten = some st.matrixStack.head? ∧
      (subrenderFinally st.matrixStack.length
        (runOps body st).1).1.activeInput = some i := by
    by_cases hpre : pre1 = []
    · subst hpre
      rw [List.nil_append] at hp1
      have he : (runOps body st).1.matrixStack.length =
          st.matrixStack.length := by rw [hp1]
      rw [subrenderFinally_balanced _ _ he]
      exact ⟨hp1, by rw [hw1, hp1], ha1⟩
    · obtain ⟨h1, h2⟩ := subrenderFinally_restores st.matrixStack pre1
        (runOps body st).1 hpre hp1
      exact ⟨h1, h2, by rw [subrenderFinally_activeInput]; exact ha1⟩
  unfold runOp
  rw [ha]
  refine ⟨?_, ?_, ?_, ?_⟩
  · show (subrenderFinally st.matrixStack.length
        (runOps body st).1).1.matrixStack = st.matrixStack
    exact key.1
  · show (subrenderFinally st.matrixStack.length
        (runOps body st).1).1.matrixStack.length = st.matrixStack.length
    rw [key.1]
  · show (subrenderFinally st.matrixStack.length
        (runOps body st).1).1.lastWritten = st.lastWritten
    rw [key.2.1, hw]
  · show (subrenderFinally st.matrixStack.length
        (runOps body st).1).1.activeInput = some i
    exact key.2.2

/-- Witness for C2: a scope body that composes one matrix and then pushes an
absolute one, from a driven state sitting on the identity. -/
theorem subrender_restores_scope_witness :
    (StackState.mk (some 0) [identityMat] (some (some identityMat))
      true).activeInput = some 0 ∧
    (StackState.mk (some 0) [identityMat] (some (some identityMat))
      true).lastWritten =
      some (StackState.mk (some 0) [identityMat] (some (some identityMat))
        true).matrixStack.head? ∧
    ((runOp (.subrender [.pushComposed ⟨2, 0, 0, 0, 0, 3, 0, 0, 0, 0, 4, 0, 1,
        2, 3, 1⟩, .pushAbsolute identityMat])
        ⟨some 0, [identityMat], some (some identityMat), true⟩).1.matrixStack =
      (StackState.mk (some 0) [identityMat] (some (some identityMat))
        true).matrixStack ∧
    (runOp (.subrender [.pushComposed ⟨2, 0, 0, 0, 0, 3, 0, 0, 0, 0, 4, 0, 1,
        2, 3, 1⟩, .pushAbsolute identityMat])
        ⟨some 0, [identityMat], some (some identityMat),
          true⟩).1.matrixStack.length =
      (StackState.mk (some 0) [identityMat] (some (some identityMat))
        true).matrixStack.length ∧
    (runOp (.subrender [.pushComposed ⟨2, 0, 0, 0, 0, 3, 0, 0, 0, 0, 4, 0, 1,
        2, 3, 1⟩, .pushAbsolute identityMat])
        ⟨some 0, [identityMat], some (some identityMat), true⟩).1.lastWritten =
      (StackState.mk (some 0) [identityMat] (some (some identityMat))
        true).lastWritten ∧
    (runOp (.subrender [.pushComposed ⟨2, 0, 0, 0, 0, 3, 0, 0, 0, 0, 4, 0, 1,
        2, 3, 1⟩, .pushAbsolute identityMat])
        ⟨some 0, [identityMat], some (some identityMat), true⟩).1.activeInput =
      (StackState.mk (some 0) [identityMat] (some (some identityMat))
        true).activeInput) :=
  ⟨rfl, rfl,
    subrender_restores_scope
      ⟨some 0, [identityMat], some (some identityMat), true⟩ 0
      [.pushComposed ⟨2, 0, 0, 0, 0, 3, 0, 0, 0, 0, 4, 0, 1, 2, 3, 1⟩,
        .pushAbsolute identityMat] rfl rfl⟩
